import Mathlib

/-!
Shallow embedding of the connection core of `jkmp-backend-matchmaking`
(`src/main.rs`): the message protocol, the client registry, the accept loop
of `main`, and the per-connection actor `process_client` (handshake phase
followed by the `tokio::select!` multiplex loop), together with theorems
about the registry lifecycle, the handshake gate, and the loop's exit
conditions.
-/

/-- Modelled from the spec: the `messages` module (`src/messages.rs`) is not
included in the sources, only its use sites in `main.rs` are. The spec
requires a tagged-variant message model with a handshake request carrying a
proposed durable identity, a handshake response, and an open-ended
application-payload category; `main.rs` matches `Message::HandshakeRequest
{ steam_id }` against a catch-all `_`. The `u64` identity is carried as a
`Nat` value (no arithmetic is performed on it). -/
inductive Message where
  | handshakeRequest (steam_id : Nat)
  | handshakeResponse
  | applicationPayload (tag : Nat)
  deriving DecidableEq

/-- `struct Client` from `main.rs`: the outbound sender endpoint (abstracted
as a channel identifier), the durable user identity `steam_id : u64`, and
the display name. -/
structure Client where
  tx : Nat
  steam_id : Nat
  name : String
  deriving DecidableEq

/-- `Client::new(tx)` from `main.rs`: stores the sender and initializes
`steam_id` to `0` and `name` to the default (empty) string. -/
def Client.new (tx : Nat) : Client :=
  ⟨tx, 0, ""⟩

/-- `State.clients : HashMap<SocketAddr, Client>`, as an association list
from socket addresses (abstracted as `Nat`) to clients. -/
abbrev Registry := List (Nat × Client)

/-- `HashMap::insert` semantics: if the key is present its value is replaced
(the previous value is returned by the Rust API and discarded by `main.rs`);
otherwise the new entry is added. -/
def insertClient (addr : Nat) (c : Client) : Registry → Registry
  | [] => [(addr, c)]
  | (a, x) :: rest =>
      if a = addr then (addr, c) :: rest else (a, x) :: insertClient addr c rest

/-- `HashMap::remove` semantics on an association list with unique keys:
drop the entry for the key if present, otherwise a no-op. -/
def removeClient (addr : Nat) : Registry → Registry
  | [] => []
  | (a, x) :: rest =>
      if a = addr then rest else (a, x) :: removeClient addr rest

/-- `HashMap::get` semantics: the value stored under the key, if any. -/
def lookupClient (addr : Nat) : Registry → Option Client
  | [] => none
  | (a, x) :: rest => if a = addr then some x else lookupClient addr rest

/-- The outcome of one `messages.next().await` on the framed inbound stream:
`ok m` for `Some(Ok(m))`, `err` for `Some(Err(_))` (a codec decode or I/O
error), `eof` for `None` (stream ended). -/
inductive ReadResult where
  | ok (m : Message)
  | err
  | eof
  deriving DecidableEq

/-- Whether the first read is `Some(Ok(Message::HandshakeRequest { .. }))`,
the only outcome `process_client` accepts before entering its loop. -/
def isHandshakeOk : ReadResult → Bool
  | ReadResult.ok (Message.handshakeRequest _) => true
  | _ => false

/-- One firing of the `tokio::select!` in `process_client`'s loop:
an outbound message became available on `rx` (with the outcome of the
subsequent socket send), the inbound stream produced a read result, or
every branch was disabled (the `else` arm). -/
inductive LoopEvent where
  | outbound (m : Message) (sendOk : Bool)
  | inbound (r : ReadResult)
  | allClosed
  deriving DecidableEq

/-- `handle_message` from `main.rs`: logs the message and returns `Ok(())`
for every message in every state; the `Framed` transport and shared state
arguments are unused, and the address is abstracted as `Nat`. -/
def handle_message (m : Message) (addr : Nat) : Except String Unit :=
  Except.ok ()

/-- Observable actions of one `process_client` task, in program order. -/
inductive ActorAction where
  | insertedEntry (addr : Nat)
  | removedEntry (addr : Nat)
  | dispatched (m : Message)
  | sent (m : Message)
  | loggedSendError
  | loggedDecodeError
  deriving DecidableEq

/-- Whether one loop iteration `break`s, per the `select!` arms of
`main.rs`: a failed send breaks; an inbound `Ok` message breaks exactly
when `handle_message` returns `Err`; an inbound `Some(Err(_))` only logs
and falls through to the next iteration; an inbound `None` breaks; the
`else` arm breaks. -/
def stepBreaks (addr : Nat) : LoopEvent → Bool
  | LoopEvent.outbound _ sendOk => ! sendOk
  | LoopEvent.inbound (ReadResult.ok m) =>
      match handle_message m addr with
      | Except.ok _ => false
      | Except.error _ => true
  | LoopEvent.inbound ReadResult.err => false
  | LoopEvent.inbound ReadResult.eof => true
  | LoopEvent.allClosed => true

/-- The actions one loop iteration performs before deciding whether to
break: a successful send writes the message, a failed send logs; an inbound
`Ok` message is handed to `handle_message` (dispatched); an inbound
`Some(Err(_))` logs the decode error. -/
def stepActions (addr : Nat) : LoopEvent → List ActorAction
  | LoopEvent.outbound m sendOk =>
      if sendOk then [ActorAction.sent m] else [ActorAction.loggedSendError]
  | LoopEvent.inbound (ReadResult.ok m) => [ActorAction.dispatched m]
  | LoopEvent.inbound ReadResult.err => [ActorAction.loggedDecodeError]
  | LoopEvent.inbound ReadResult.eof => []
  | LoopEvent.allClosed => []

/-- The multiplex loop over a finite prefix of `select!` firings: consumes
events until one breaks, returning whether the loop has exited and the
actions performed. An exhausted event list with no break means the task is
still suspended inside the loop. -/
def runLoop (addr : Nat) : List LoopEvent → Bool × List ActorAction
  | [] => (false, [])
  | e :: rest =>
      if stepBreaks addr e then (true, stepActions addr e)
      else
        let r := runLoop addr rest
        (r.1, stepActions addr e ++ r.2)

/-- `process_client` from `main.rs`, as a function of the first read and a
finite prefix of loop firings: a first read of `HandshakeRequest` inserts
`Client::new(tx)` under the address and runs the loop, removing the entry
when (and only when) the loop exits; any other first read returns at once,
leaving the registry untouched. The requested `steam_id` is bound by the
pattern and discarded, exactly as in the source. -/
def processClient (addr tx : Nat) (first : ReadResult) (events : List LoopEvent)
    (reg0 : Registry) : Registry × List ActorAction :=
  match first with
  | ReadResult.ok (Message.handshakeRequest _) =>
      let reg1 := insertClient addr (Client.new tx) reg0
      let r := runLoop addr events
      let reg2 := if r.1 then removeClient addr reg1 else reg1
      (reg2, ActorAction.insertedEntry addr :: r.2 ++
        (if r.1 then [ActorAction.removedEntry addr] else []))
  | _ => (reg0, [])

/-- Lifecycle phase of one connection actor: before the handshake read, in
the multiplex loop after a successful handshake, or terminated. -/
inductive Phase where
  | awaitingHandshake
  | active
  | done
  deriving DecidableEq

/-- The (phase, registry) configurations visited while the loop consumes
its events: the registry is untouched while iterating, and the exiting
iteration removes the actor's entry. -/
def loopConfigs (addr : Nat) (reg : Registry) : List LoopEvent →
    List (Phase × Registry)
  | [] => []
  | e :: rest =>
      if stepBreaks addr e then [(Phase.done, removeClient addr reg)]
      else (Phase.active, reg) :: loopConfigs addr reg rest

/-- All (phase, registry) configurations of one `process_client` task, from
spawn to (at most) termination: the initial awaiting configuration, then on
handshake success the active configuration with the inserted entry followed
by the loop configurations, or on rejection immediate termination with the
registry untouched. -/
def actorConfigs (addr tx : Nat) (first : ReadResult) (events : List LoopEvent)
    (reg0 : Registry) : List (Phase × Registry) :=
  (Phase.awaitingHandshake, reg0) ::
    match first with
    | ReadResult.ok (Message.handshakeRequest _) =>
        let reg1 := insertClient addr (Client.new tx) reg0
        (Phase.active, reg1) :: loopConfigs addr reg1 events
    | _ => [(Phase.done, reg0)]

/-- One `listener.accept().await` outcome in `main`'s loop: a new socket
(abstracted as `Nat`) or an error (abstracted as `Nat`). -/
inductive AcceptResult where
  | ok (conn : Nat)
  | err (e : Nat)
  deriving DecidableEq

/-- Observable action of one accept-loop iteration. -/
inductive AcceptAction where
  | spawned (conn : Nat)
  | logged (e : Nat)
  deriving DecidableEq

/-- One iteration of `main`'s `loop`: an `Err` is printed, an `Ok` socket is
handed to `process_client` (which spawns the actor); neither arm exits. -/
def acceptIter : AcceptResult → AcceptAction
  | AcceptResult.ok c => AcceptAction.spawned c
  | AcceptResult.err e => AcceptAction.logged e

/-- The accept loop over a finite prefix of accept outcomes: every outcome,
error or not, is processed and the loop proceeds to the next. -/
def acceptLoop : List AcceptResult → List AcceptAction
  | [] => []
  | r :: rest => acceptIter r :: acceptLoop rest

/-- The endpoint `main` binds, as a function of the process's startup
inputs: the source passes the string literal `"127.0.0.1:16000"` to
`TcpListener::bind` and consults no configuration, so the result ignores
its argument. -/
def mainListenEndpoint (startupInputs : List String) : String :=
  "127.0.0.1:16000"

/-! ### Registry helper lemmas -/

theorem lookupClient_insert_self (addr : Nat) (c : Client) (reg : Registry) :
    lookupClient addr (insertClient addr c reg) = some c := by
  induction reg with
  | nil => simp [insertClient, lookupClient]
  | cons hd tl ih =>
      obtain ⟨a, x⟩ := hd
      by_cases hax : a = addr
      · subst hax
        simp [insertClient, lookupClient]
      · simp [insertClient, lookupClient, hax, ih]

theorem removeClient_insert_of_lookup_none (addr : Nat) (c : Client)
    (reg : Registry) (h : lookupClient addr reg = none) :
    removeClient addr (insertClient addr c reg) = reg := by
  induction reg with
  | nil => simp [insertClient, removeClient]
  | cons hd tl ih =>
      obtain ⟨a, x⟩ := hd
      by_cases hax : a = addr
      · simp [lookupClient, hax] at h
      · simp only [lookupClient, hax, if_false] at h
        simp [insertClient, removeClient, hax, ih h]

theorem loopConfigs_mem (addr : Nat) (reg : Registry) (events : List LoopEvent)
    (p : Phase) (r : Registry) (h : (p, r) ∈ loopConfigs addr reg events) :
    (p = Phase.active ∧ r = reg) ∨
      (p = Phase.done ∧ r = removeClient addr reg) := by
  induction events with
  | nil => simp [loopConfigs] at h
  | cons e rest ih =>
      rw [loopConfigs] at h
      cases hb : stepBreaks addr e with
      | true =>
          rw [hb] at h
          simp at h
          right
          exact ⟨h.1, h.2⟩
      | false =>
          rw [hb] at h
          simp at h
          rcases h with h | h
          · left
            exact ⟨h.1, h.2⟩
          · exact ih h

theorem runLoop_no_registry_actions (addr a : Nat) (events : List LoopEvent) :
    ActorAction.insertedEntry a ∉ (runLoop addr events).2 ∧
    ActorAction.removedEntry a ∉ (runLoop addr events).2 := by
  induction events with
  | nil => simp [runLoop]
  | cons e rest ih =>
      have hs : ActorAction.insertedEntry a ∉ stepActions addr e ∧
          ActorAction.removedEntry a ∉ stepActions addr e := by
        cases e with
        | outbound m sendOk => cases sendOk <;> simp [stepActions]
        | inbound r => cases r <;> simp [stepActions]
        | allClosed => simp [stepActions]
      rw [runLoop]
      cases hb : stepBreaks addr e <;>
        simp [hb, hs.1, hs.2, ih.1, ih.2]

/-! ### Claim theorems -/

/-- C1, counterexample: a codec decode error on the inbound stream during
the multiplex loop does not exit the loop. The iteration does not break,
the registry entry is not removed, and the loop goes on to dispatch a
later message after the decode error. -/
theorem decode_error_not_fatal_counterexample :
    stepBreaks 0 (LoopEvent.inbound ReadResult.err) = false ∧
    (processClient 0 7 (ReadResult.ok (Message.handshakeRequest 1))
        [LoopEvent.inbound ReadResult.err] []).1 = [(0, Client.new 7)] ∧
    ActorAction.dispatched Message.handshakeResponse ∈
      (processClient 0 7 (ReadResult.ok (Message.handshakeRequest 1))
        [LoopEvent.inbound ReadResult.err,
          LoopEvent.inbound (ReadResult.ok Message.handshakeResponse)] []).2 :=
  ⟨rfl, rfl, by decide⟩

/-- C1, amended: a codec decode error on the inbound stream during the
multiplex loop is logged and the loop continues (the iteration never
breaks); whenever the loop does exit — by whichever exit condition — the
connection's registry entry is removed. -/
theorem decode_error_logged_loop_continues (addr tx s : Nat)
    (events : List LoopEvent) (reg0 : Registry)
    (h : (runLoop addr events).1 = true) :
    stepBreaks addr (LoopEvent.inbound ReadResult.err) = false ∧
    (processClient addr tx (ReadResult.ok (Message.handshakeRequest s))
        events reg0).1 =
      removeClient addr (insertClient addr (Client.new tx) reg0) := by
  refine ⟨rfl, ?_⟩
  simp [processClient, h]

/-- Witness for `decode_error_logged_loop_continues` at a concrete run
whose loop exits on end of stream. -/
theorem decode_error_logged_loop_continues_witness :
    (runLoop 0 [LoopEvent.inbound ReadResult.eof]).1 = true ∧
    (stepBreaks 0 (LoopEvent.inbound ReadResult.err) = false ∧
      (processClient 0 7 (ReadResult.ok (Message.handshakeRequest 1))
          [LoopEvent.inbound ReadResult.eof] []).1 =
        removeClient 0 (insertClient 0 (Client.new 7) [])) :=
  ⟨rfl, decode_error_logged_loop_continues 0 7 1
    [LoopEvent.inbound ReadResult.eof] [] rfl⟩

/-- C2: evaluation at the failing input. After a `HandshakeRequest` whose
proposed identity is `42`, the registry entry holds `Client::new(tx)`,
whose `steam_id` is `0`, not `42`: the requested durable identity is
discarded by the handshake. -/
theorem handshake_identity_ignored :
    (processClient 0 7 (ReadResult.ok (Message.handshakeRequest 42)) [] []).1 =
      [(0, Client.new 7)] ∧
    (Client.new 7).steam_id = 0 ∧ (42 : Nat) ≠ 0 :=
  ⟨rfl, rfl, by decide⟩

/-- C3: a fresh connection whose first read is anything but a
`HandshakeRequest` — another variant, a read error, or end of stream —
terminates with no registry mutation and no actions: the registry is
exactly the one from before the task started. -/
theorem reject_no_registry_mutation (addr tx : Nat) (first : ReadResult)
    (events : List LoopEvent) (reg0 : Registry)
    (h : isHandshakeOk first = false) :
    processClient addr tx first events reg0 = (reg0, []) := by
  cases first with
  | ok m =>
      cases m with
      | handshakeRequest s => simp [isHandshakeOk] at h
      | handshakeResponse => rfl
      | applicationPayload t => rfl
  | err => rfl
  | eof => rfl

/-- Witness for `reject_no_registry_mutation`: a non-handshake first
message on a registry that already holds an unrelated entry. -/
theorem reject_no_registry_mutation_witness :
    isHandshakeOk (ReadResult.ok Message.handshakeResponse) = false ∧
    processClient 1 7 (ReadResult.ok Message.handshakeResponse)
        [LoopEvent.inbound ReadResult.err] [(3, Client.new 9)] =
      ([(3, Client.new 9)], []) :=
  ⟨rfl, reject_no_registry_mutation 1 7 (ReadResult.ok Message.handshakeResponse)
    [LoopEvent.inbound ReadResult.err] [(3, Client.new 9)] rfl⟩

/-- C5, counterexample: inserting under an identity that already has a live
entry succeeds and silently replaces the existing client handle — it does
not fail as a programming-error condition. -/
theorem insert_replace_counterexample :
    insertClient 0 (Client.new 2) [(0, Client.new 1)] = [(0, Client.new 2)] ∧
    Client.new 2 ≠ Client.new 1 :=
  ⟨rfl, by decide⟩

/-- C5, amended: `HashMap::insert` semantics — inserting under an identity
that is already present silently replaces the previous handle (which is
discarded), and afterwards the identity maps to the new handle; the
operation never fails. -/
theorem insert_replaces_existing (addr : Nat) (c1 c2 : Client)
    (reg : Registry) :
    insertClient addr c2 (insertClient addr c1 reg) =
      insertClient addr c2 reg ∧
    lookupClient addr (insertClient addr c2 reg) = some c2 := by
  refine ⟨?_, lookupClient_insert_self addr c2 reg⟩
  induction reg with
  | nil => simp [insertClient]
  | cons hd tl ih =>
      obtain ⟨a, x⟩ := hd
      by_cases hax : a = addr
      · subst hax
        simp [insertClient]
      · simp [insertClient, hax, ih]

/-- C6: an error from `listener.accept()` is logged and the accept loop
continues with the next iteration — every later accept outcome is still
processed, so an accept error never terminates the loop. -/
theorem accept_error_continues (e : Nat) (rest : List AcceptResult) :
    acceptLoop (AcceptResult.err e :: rest) =
      AcceptAction.logged e :: acceptLoop rest ∧
    (acceptLoop rest).length = rest.length := by
  refine ⟨rfl, ?_⟩
  induction rest with
  | nil => rfl
  | cons r tl ih => simp [acceptLoop, ih]

/-- C8, counterexample: the bound endpoint does not depend on any startup
input — requesting a different endpoint at startup still binds the string
literal `127.0.0.1:16000`, so the address and port are a fixed constant,
not configurable. -/
theorem listen_endpoint_counterexample :
    mainListenEndpoint ["0.0.0.0:9000"] = mainListenEndpoint [] ∧
    mainListenEndpoint ["0.0.0.0:9000"] = "127.0.0.1:16000" :=
  ⟨rfl, rfl⟩

/-- C8, amended: the Listener binds one TCP listening endpoint whose
address and port are the fixed constant `127.0.0.1:16000`, regardless of
any startup input; no configuration collaborator is consulted. -/
theorem listen_endpoint_constant (startupInputs : List String) :
    mainListenEndpoint startupInputs = "127.0.0.1:16000" :=
  rfl

/-- C9: `handle_message` returns `Ok(())` for every message and every
connection, so the dispatch-error break of the multiplex loop is
unreachable: an inbound well-decoded message never breaks the loop. -/
theorem handle_message_always_ok (m : Message) (addr : Nat) :
    handle_message m addr = Except.ok () ∧
    stepBreaks addr (LoopEvent.inbound (ReadResult.ok m)) = false :=
  ⟨rfl, rfl⟩

/-- C4: lifecycle of a registry entry. Given the address is initially
absent, at every configuration the actor visits, the entry exists exactly
while the actor is in the active phase (between handshake success and loop
exit); the task performs exactly one insertion when the handshake succeeds
and none otherwise, and exactly one removal when the loop exits and none
otherwise. -/
theorem registry_lifecycle (addr tx : Nat) (first : ReadResult)
    (events : List LoopEvent) (reg0 : Registry)
    (h0 : lookupClient addr reg0 = none) :
    (∀ p r, (p, r) ∈ actorConfigs addr tx first events reg0 →
        ((lookupClient addr r).isSome = true ↔ p = Phase.active)) ∧
    ((processClient addr tx first events reg0).2.count
        (ActorAction.insertedEntry addr) =
      if isHandshakeOk first = true then 1 else 0) ∧
    ((processClient addr tx first events reg0).2.count
        (ActorAction.removedEntry addr) =
      if isHandshakeOk first = true ∧ (runLoop addr events).1 = true
        then 1 else 0) := by
  cases first with
  | ok m =>
      cases m with
      | handshakeRequest s =>
          have hreg1 : lookupClient addr (insertClient addr (Client.new tx) reg0) =
              some (Client.new tx) := lookupClient_insert_self addr (Client.new tx) reg0
          have hrem : removeClient addr (insertClient addr (Client.new tx) reg0) =
              reg0 := removeClient_insert_of_lookup_none addr (Client.new tx) reg0 h0
          have hno1 := (runLoop_no_registry_actions addr addr events).1
          have hno2 := (runLoop_no_registry_actions addr addr events).2
          refine ⟨?_, ?_, ?_⟩
          · intro p r hmem
            simp only [actorConfigs, List.mem_cons, Prod.mk.injEq] at hmem
            rcases hmem with ⟨rfl, rfl⟩ | ⟨rfl, rfl⟩ | hm
            · simp [h0]
            · simp [hreg1]
            · rcases loopConfigs_mem addr _ events p r hm with ⟨rfl, rfl⟩ | ⟨rfl, rfl⟩
              · simp [hreg1]
              · rw [hrem]
                simp [h0]
          · simp only [processClient, isHandshakeOk, if_pos]
            cases hb : (runLoop addr events).1 <;>
              simp [hb, List.count_cons, List.count_append,
                List.count_eq_zero.mpr hno1]
          · simp only [processClient, isHandshakeOk]
            cases hb : (runLoop addr events).1 <;>
              simp [hb, List.count_cons, List.count_append,
                List.count_eq_zero.mpr hno2]
      | handshakeResponse =>
          refine ⟨?_, by simp [processClient, isHandshakeOk],
            by simp [processClient, isHandshakeOk]⟩
          intro p r hmem
          simp only [actorConfigs, List.mem_cons, Prod.mk.injEq,
            List.mem_singleton, List.not_mem_nil, or_false] at hmem
          rcases hmem with ⟨rfl, rfl⟩ | ⟨rfl, rfl⟩ <;> simp [h0]
      | applicationPayload t =>
          refine ⟨?_, by simp [processClient, isHandshakeOk],
            by simp [processClient, isHandshakeOk]⟩
          intro p r hmem
          simp only [actorConfigs, List.mem_cons, Prod.mk.injEq,
            List.mem_singleton, List.not_mem_nil, or_false] at hmem
          rcases hmem with ⟨rfl, rfl⟩ | ⟨rfl, rfl⟩ <;> simp [h0]
  | err =>
      refine ⟨?_, by simp [processClient, isHandshakeOk],
        by simp [processClient, isHandshakeOk]⟩
      intro p r hmem
      simp only [actorConfigs, List.mem_cons, Prod.mk.injEq,
        List.mem_singleton, List.not_mem_nil, or_false] at hmem
      rcases hmem with ⟨rfl, rfl⟩ | ⟨rfl, rfl⟩ <;> simp [h0]
  | eof =>
      refine ⟨?_, by simp [processClient, isHandshakeOk],
        by simp [processClient, isHandshakeOk]⟩
      intro p r hmem
      simp only [actorConfigs, List.mem_cons, Prod.mk.injEq,
        List.mem_singleton, List.not_mem_nil, or_false] at hmem
      rcases hmem with ⟨rfl, rfl⟩ | ⟨rfl, rfl⟩ <;> simp [h0]

/-- Witness for `registry_lifecycle`: a successful handshake whose loop
exits on end of stream, starting from the empty registry. -/
theorem registry_lifecycle_witness :
    lookupClient 0 ([] : Registry) = none ∧
    (processClient 0 7 (ReadResult.ok (Message.handshakeRequest 5))
        [LoopEvent.inbound ReadResult.eof] []).2.count
      (ActorAction.insertedEntry 0) =
      (if isHandshakeOk (ReadResult.ok (Message.handshakeRequest 5)) = true
        then 1 else 0) :=
  ⟨rfl, (registry_lifecycle 0 7 (ReadResult.ok (Message.handshakeRequest 5))
    [LoopEvent.inbound ReadResult.eof] [] rfl).2.1⟩

/-- C7: the dispatch gate. If any message is handed to `handle_message`
during a connection's run, the single message read before the loop was a
successfully decoded `HandshakeRequest`: no dispatch ever happens on a
connection that did not complete the handshake. -/
theorem dispatch_requires_handshake (addr tx : Nat) (first : ReadResult)
    (events : List LoopEvent) (reg0 : Registry) (m : Message)
    (h : ActorAction.dispatched m ∈
      (processClient addr tx first events reg0).2) :
    isHandshakeOk first = true := by
  cases first with
  | ok m0 =>
      cases m0 with
      | handshakeRequest s => rfl
      | handshakeResponse => simp [processClient] at h
      | applicationPayload t => simp [processClient] at h
  | err => simp [processClient] at h
  | eof => simp [processClient] at h

/-- Witness for `dispatch_requires_handshake`: a run that dispatches one
post-handshake message. -/
theorem dispatch_requires_handshake_witness :
    ActorAction.dispatched Message.handshakeResponse ∈
      (processClient 0 7 (ReadResult.ok (Message.handshakeRequest 5))
        [LoopEvent.inbound (ReadResult.ok Message.handshakeResponse)] []).2 ∧
    isHandshakeOk (ReadResult.ok (Message.handshakeRequest 5)) = true :=
  ⟨by decide, dispatch_requires_handshake 0 7
    (ReadResult.ok (Message.handshakeRequest 5))
    [LoopEvent.inbound (ReadResult.ok Message.handshakeResponse)] []
    Message.handshakeResponse (by decide)⟩

/-- C10: no operation mutates a registry entry's fields. In every
configuration a connection actor visits, whatever client handle is stored
under its address has `steam_id = 0` and an empty display name — the
fields set by `Client::new` are never updated afterwards. -/
theorem registry_fields_constant (addr tx : Nat) (first : ReadResult)
    (events : List LoopEvent) (reg0 : Registry)
    (h0 : lookupClient addr reg0 = none) (p : Phase) (r : Registry)
    (hmem : (p, r) ∈ actorConfigs addr tx first events reg0)
    (c : Client) (hc : lookupClient addr r = some c) :
    c.steam_id = 0 ∧ c.name = "" := by
  cases first with
  | ok m =>
      cases m with
      | handshakeRequest s =>
          have hreg1 : lookupClient addr (insertClient addr (Client.new tx) reg0) =
              some (Client.new tx) :=
            lookupClient_insert_self addr (Client.new tx) reg0
          have hrem : removeClient addr (insertClient addr (Client.new tx) reg0) =
              reg0 := removeClient_insert_of_lookup_none addr (Client.new tx) reg0 h0
          simp only [actorConfigs, List.mem_cons, Prod.mk.injEq] at hmem
          rcases hmem with ⟨rfl, rfl⟩ | ⟨rfl, rfl⟩ | hm
          · rw [h0] at hc
            exact Option.noConfusion hc
          · rw [hreg1] at hc
            cases hc
            exact ⟨rfl, rfl⟩
          · rcases loopConfigs_mem addr _ events p r hm with ⟨rfl, rfl⟩ | ⟨rfl, rfl⟩
            · rw [hreg1] at hc
              cases hc
              exact ⟨rfl, rfl⟩
            · rw [hrem, h0] at hc
              exact Option.noConfusion hc
      | handshakeResponse =>
          simp only [actorConfigs, List.mem_cons, Prod.mk.injEq,
            List.mem_singleton, List.not_mem_nil, or_false] at hmem
          rcases hmem with ⟨rfl, rfl⟩ | ⟨rfl, rfl⟩ <;>
            · rw [h0] at hc
              exact Option.noConfusion hc
      | applicationPayload t =>
          simp only [actorConfigs, List.mem_cons, Prod.mk.injEq,
            List.mem_singleton, List.not_mem_nil, or_false] at hmem
          rcases hmem with ⟨rfl, rfl⟩ | ⟨rfl, rfl⟩ <;>
            · rw [h0] at hc
              exact Option.noConfusion hc
  | err =>
      simp only [actorConfigs, List.mem_cons, Prod.mk.injEq,
        List.mem_singleton, List.not_mem_nil, or_false] at hmem
      rcases hmem with ⟨rfl, rfl⟩ | ⟨rfl, rfl⟩ <;>
        · rw [h0] at hc
          exact Option.noConfusion hc
  | eof =>
      simp only [actorConfigs, List.mem_cons, Prod.mk.injEq,
        List.mem_singleton, List.not_mem_nil, or_false] at hmem
      rcases hmem with ⟨rfl, rfl⟩ | ⟨rfl, rfl⟩ <;>
        · rw [h0] at hc
          exact Option.noConfusion hc

/-- Witness for `registry_fields_constant`: the active configuration right
after a successful handshake with proposed identity `5`. -/
theorem registry_fields_constant_witness :
    lookupClient 0 ([] : Registry) = none ∧
    ((Client.new 7).steam_id = 0 ∧ (Client.new 7).name = "") :=
  ⟨rfl, registry_fields_constant 0 7 (ReadResult.ok (Message.handshakeRequest 5))
    [] [] rfl Phase.active (insertClient 0 (Client.new 7) []) (by decide)
    (Client.new 7) (by decide)⟩
